import Mathlib

/-!
Shallow embedding of the ERDDAP downloader (src/downloader.py and
src/download_files.py).  Network fetches and HTML/CSV parsing are external
primitives per the specification; they are modelled as an environment of
functions from URL strings to typed results.  The filesystem is an
association list from paths to byte contents; every state change of a run
(files written, network calls issued, outcome events, missed-download
tuples) is threaded explicitly through a state record.
-/

deriving instance DecidableEq for Except

namespace Erddap

/-- Response bodies, as raw byte sequences. -/
abbrev Bytes := List Nat

/-- The error kinds raised by the transport primitives: an HTTP error status
from raise_for_status, a transport-level RequestException, a truncated body
(IncompleteRead), and an out-of-fuel marker used only to cut the modelled
recursion of the files crawler. -/
inductive Err where
  | http (status : Nat)
  | network
  | incompleteRead
  | fuelOut
  deriving DecidableEq

/-- An HTTP client error is a 4xx status. -/
def Err.isClientError : Err → Bool
  | .http s => decide (400 ≤ s) && decide (s < 500)
  | _ => false

/-- The local filesystem: an association list from path to byte content.
Writing a path conses a new binding; lookup takes the most recent one. -/
abbrev FS := List (String × Bytes)

/-- Look up the content of a path, most recent write first. -/
def fsLookup : FS → String → Option Bytes
  | [], _ => none
  | (p, b) :: rest, q => if p = q then some b else fsLookup rest q

/-- os.path.exists on the modelled filesystem. -/
def fsExists (fs : FS) (p : String) : Bool :=
  (fsLookup fs p).isSome

/-- os.path.join of a directory and a file name. -/
def joinPath (dir f : String) : String := dir ++ "/" ++ f

/-- The external world: requests.get on arbitrary URLs, and the two parsing
primitives of the files crawler (file rows and folder rows of a directory
index page), each of which performs its own fetch of the listing URL. -/
structure Env where
  fetch : String → Except Err Bytes
  listFiles : String → Except Err (List String)
  listFolders : String → Except Err (List String)

/-- A per-format outcome of the format orchestrator: a saved file, a
skipped existing file, or a failed fetch. -/
inductive Event where
  | saved (fmt : String)
  | skipped (fmt : String)
  | failed (fmt : String) (e : Err)
  deriving DecidableEq

/-- A row destined for the error report: erddap url, dataset id, missed
target (format, file name, or the aggregate marker "all"), error. -/
abbrev MissedT := String × String × String × Err

/-- Observable state of a run: files on disk, network calls issued in
order, per-format outcome events, and the accumulated missed-download
tuples (the error report input). -/
structure St where
  fs : FS
  calls : List String
  events : List Event
  missed : List MissedT
  deriving DecidableEq

/-- download(url, file_path): issue the fetch (always recorded as a network
call), raise_for_status, and on success write the full body to the path.
The Except value models the exception the caller may catch. -/
def download (env : Env) (url filePath : String) (st : St) :
    Except Err Unit × St :=
  let st1 := { st with calls := st.calls ++ [url] }
  match env.fetch url with
  | .ok body => (.ok (), { st1 with fs := (filePath, body) :: st1.fs })
  | .error e => (.error e, st1)

/-- build_dataset_url from src/downloader.py: always the tabledap segment,
no variable query string. -/
def build_dataset_url (erddap_url dataset_id fmt : String) : String :=
  erddap_url ++ "/tabledap/" ++ dataset_id ++ "." ++ fmt

/-- all_formats_exist from src/downloader.py. -/
def all_formats_exist (fs : FS) (download_dir dataset_id : String)
    (formats : List String) : Bool :=
  formats.all fun fmt =>
    fsExists fs (joinPath download_dir (dataset_id ++ "." ++ fmt))

/-- Target path of one format of a dataset. -/
def fmtPath (download_dir dataset_id fmt : String) : String :=
  joinPath download_dir (dataset_id ++ "." ++ fmt)

/-- One iteration of the format loop of download_dataset_files: skip a
format whose file exists when skip_existing is set, otherwise fetch the
dataset url and either save the body or record the missed format. -/
def downloadFmtStep (env : Env) (erddap_url dataset_id download_dir : String)
    (skip_existing : Bool) (st : St) (fmt : String) : St :=
  let file_path := fmtPath download_dir dataset_id fmt
  if skip_existing && fsExists st.fs file_path then
    { st with events := st.events ++ [.skipped fmt] }
  else
    let url := build_dataset_url erddap_url dataset_id fmt
    match download env url file_path st with
    | (.ok _, st1) => { st1 with events := st1.events ++ [.saved fmt] }
    | (.error e, st1) =>
        { st1 with
          events := st1.events ++ [.failed fmt e],
          missed := st1.missed ++ [(erddap_url, dataset_id, fmt, e)] }

/-- download_dataset_files from src/downloader.py: the format loop. -/
def download_dataset_files (env : Env) (erddap_url dataset_id : String)
    (formats : List String) (download_dir : String) (skip_existing : Bool)
    (st : St) : St :=
  formats.foldl
    (downloadFmtStep env erddap_url dataset_id download_dir skip_existing) st

/-- download_files from src/downloader.py, per-file loop body: fetch one
file of the listing; a caught failure appends one missed tuple for that
file and the loop continues. -/
def downloadFileStep (env : Env)
    (erddap_url dataset_id file_url download_dir : String)
    (st : St) (file_name : String) : St :=
  let url := file_url ++ file_name
  let file_path := joinPath download_dir file_name
  match download env url file_path st with
  | (.ok _, st1) => st1
  | (.error e, st1) =>
      { st1 with missed := st1.missed ++ [(erddap_url, dataset_id, file_name, e)] }

/-- download_files from src/downloader.py: fetch the listing page of a
dataset; a listing failure yields a single aggregated missed entry with
target "all"; otherwise every listed file is attempted in order. -/
def download_files_dl (env : Env)
    (erddap_url dataset_id file_url download_dir : String) (st : St) : St :=
  match env.listFiles file_url with
  | .error e =>
      { st with missed := st.missed ++ [(erddap_url, dataset_id, "all", e)] }
  | .ok names =>
      names.foldl (downloadFileStep env erddap_url dataset_id file_url download_dir) st

/-- One catalog row turned into the tuple carried by the main loop. -/
structure Dataset where
  id : String
  dataStructure : String
  fileUrl : String
  iso19115Url : String
  deriving DecidableEq

/-- The dataset-selection command line flags of src/downloader.py. -/
structure Flags where
  table_datasets : Bool
  grid_datasets_1 : Bool
  grid_datasets_2 : Bool
  skip_existing : Bool
  deriving DecidableEq

/-- Per-dataset download directory: downloads_folder/host/dataset_id. -/
def dsDir (downloads_folder host dataset_id : String) : String :=
  joinPath (joinPath downloads_folder host) dataset_id

/-- Path of the iso19115 metadata sidecar file of a dataset. -/
def isoPath (download_dir dataset_id : String) : String :=
  joinPath download_dir (dataset_id ++ ".iso19115")

/-- The per-dataset body of the main loop of src/downloader.py (lines
99 to 132): skip the dataset when skip_existing holds and all formats
exist, otherwise dispatch on structure kind and flags, then fetch the
iso19115 sidecar when a branch ran and the url is non-empty.  The sidecar
fetch is not wrapped in an exception handler, so its failure escapes as
the error of the Except value, carrying the state reached so far. -/
def processDataset (env : Env) (fl : Flags)
    (erddap_url host downloads_folder : String) (formats : List String)
    (ds : Dataset) (st : St) : Except (Err × St) St :=
  let download_dir := dsDir downloads_folder host ds.id
  if fl.skip_existing && all_formats_exist st.fs download_dir ds.id formats then
    .ok st
  else
    let is_table := ds.dataStructure == "table"
    let has_files := ds.fileUrl != ""
    let res :=
      if is_table && fl.table_datasets then
        (true, download_dataset_files env erddap_url ds.id formats download_dir
          fl.skip_existing st)
      else if !is_table && has_files && fl.grid_datasets_1 then
        (true, download_files_dl env erddap_url ds.id ds.fileUrl download_dir st)
      else if !is_table && !has_files && fl.grid_datasets_2 then
        (true, st)
      else
        (false, st)
    if res.1 && ds.iso19115Url != "" then
      match download env ds.iso19115Url (isoPath download_dir ds.id) res.2 with
      | (.ok _, st2) => .ok st2
      | (.error e, st2) => .error (e, st2)
    else
      .ok res.2

/-- The dataset loop of main: an uncaught exception of one dataset aborts
the whole loop. -/
def processDatasets (env : Env) (fl : Flags)
    (erddap_url host downloads_folder : String) (formats : List String) :
    List Dataset → St → Except (Err × St) St
  | [], st => .ok st
  | ds :: rest, st =>
    match processDataset env fl erddap_url host downloads_folder formats ds st with
    | .ok st1 => processDatasets env fl erddap_url host downloads_folder formats rest st1
    | .error es => .error es

/-- list.index of Python on the header row: position of the first
occurrence of a column name, none when absent (ValueError). -/
def headerIndex : List String → String → Option Nat
  | [], _ => none
  | h :: t, name => if h = name then some 0 else (headerIndex t name).map (· + 1)

/-- The row filter condition of get_dataset_ids: not the synthetic
allDatasets row, a non-empty structure kind, and membership in the
explicit id list when one was supplied. -/
def keepRow (specified : Option (List String)) (dataset_id data_structure : String) :
    Bool :=
  dataset_id != "allDatasets" && data_structure != "" &&
    (match specified with
     | none => true
     | some l => l.contains dataset_id)

/-- The two uncaught exceptions of get_dataset_ids: the ValueError of
list.index on a missing column name, and the IndexError of row[index] on
a row shorter than a located column position (csv.reader yields an empty
row for a blank line). -/
inductive CatalogErr where
  | valueError
  | indexError
  deriving DecidableEq

/-- The row loop of get_dataset_ids: each row is indexed at the four
located positions (in source order, before the filter condition is
evaluated); an out-of-range index is the uncaught IndexError and aborts
the whole loop. -/
def catalogLoop (specified : Option (List String)) (i j k m : Nat) :
    List (List String) → List (String × String × String × String) →
    Except CatalogErr (List (String × String × String × String))
  | [], acc => .ok acc
  | row :: rest, acc =>
    match row.get? i with
    | none => .error .indexError
    | some dataset_id =>
      match row.get? j with
      | none => .error .indexError
      | some data_structure =>
        match row.get? k with
        | none => .error .indexError
        | some file_url =>
          match row.get? m with
          | none => .error .indexError
          | some iso19115_url =>
            if keepRow specified dataset_id data_structure then
              catalogLoop specified i j k m rest
                (acc ++ [(dataset_id, data_structure, file_url, iso19115_url)])
            else
              catalogLoop specified i j k m rest acc

/-- get_dataset_ids from src/downloader.py, after the catalog fetch and
csv parse primitives: the header row and data rows of the catalog, and
the optional explicit id list.  Column positions are located by name in
the header; a missing column is the uncaught ValueError of list.index,
and a row shorter than a located position is the uncaught IndexError. -/
def get_dataset_ids (header : List String) (rows : List (List String))
    (specified : Option (List String)) :
    Except CatalogErr (List (String × String × String × String)) :=
  match headerIndex header "datasetID" with
  | none => .error .valueError
  | some i =>
    match headerIndex header "dataStructure" with
    | none => .error .valueError
    | some j =>
      match headerIndex header "files" with
      | none => .error .valueError
      | some k =>
        match headerIndex header "iso19115" with
        | none => .error .valueError
        | some m =>
          catalogLoop specified i j k m rows []

/-- An input element inside a table cell, with its optional value
attribute. -/
structure InputTag where
  value : Option String
  deriving DecidableEq

/-- A td cell of a parsed schema page; input_tag models td.find, the
first input element of the cell or none. -/
structure Cell where
  input_tag : Option InputTag
  deriving DecidableEq

/-- A tr row of a parsed schema page: its visible text and its cells. -/
structure Row where
  text : String
  cells : List Cell
  deriving DecidableEq

/-- A table element of a parsed schema page. -/
structure Table where
  rows : List Row
  deriving DecidableEq

/-- Python substring containment on strings. -/
def containsSub (s pat : String) : Bool :=
  decide (pat.toList <:+: s.toList)

/-- Whether the first row of a table mentions Grid Variables. -/
def tableHasGridHeader (t : Table) : Bool :=
  match t.rows.head? with
  | some r => containsSub r.text "Grid Variables"
  | none => false

/-- The first table whose first row mentions Grid Variables. -/
def findGridTable (ts : List Table) : Option Table :=
  ts.find? tableHasGridHeader

/-- The row loop of extract_grid_variables_from_url over rows 2..n of the
selected table: take the first cell of the row (none models the
AttributeError raised when the row has no cell), then collect the value
attribute of its first input element when both are present. -/
def gridRowsLoop : List Row → List String → Option (List String)
  | [], acc => some acc
  | r :: rs, acc =>
    match r.cells.head? with
    | none => none
    | some td =>
      match td.input_tag with
      | some it =>
        match it.value with
        | some v => gridRowsLoop rs (acc ++ [v])
        | none => gridRowsLoop rs acc
      | none => gridRowsLoop rs acc

/-- extract_grid_variables_from_url (identical row logic in
src/downloader.py and src/download_files.py), after the fetch and HTML
parse primitives: the page as a list of tables.  The none result models
an uncaught AttributeError. -/
def extract_grid_variables (ts : List Table) : Option (List String) :=
  match findGridTable ts with
  | none => some []
  | some t => gridRowsLoop t.rows.tail []

/-- The value a well-formed row contributes to the extracted sequence. -/
def rowValue (r : Row) : Option String :=
  (r.cells.head?.bind Cell.input_tag).bind InputTag.value

/-- str(e) of the error kinds, as written into the report. -/
def errDescr : Err → String
  | .http s => "HTTPError " ++ toString s
  | .network => "RequestException"
  | .incompleteRead => "IncompleteRead"
  | .fuelOut => "RecursionExhausted"

/-- Header row of the error report file. -/
def reportHeader : List String :=
  ["time", "erddap_url", "datasetID", "missed", "error"]

/-- One data row of the error report: run start timestamp, endpoint,
dataset id, missed target, error description. -/
def reportRow (startTime : String) (t : MissedT) : List String :=
  [startTime, t.1, t.2.1, t.2.2.1, errDescr t.2.2.2]

/-- do_error_report from src/downloader.py, on the modelled report file:
the rows already present, whether the file existed, and the rows after
the call (append mode; header written only when the file was absent). -/
def do_error_report (missed : List MissedT) (startTime : String)
    (file_exists : Bool) (oldRows : List (List String)) : List (List String) :=
  let base := if file_exists then oldRows else oldRows ++ [reportHeader]
  missed.foldl (fun acc t => acc ++ [reportRow startTime t]) base

/-- The missed tuple a Failed event of a dataset contributes to the
report, none for Saved and Skipped events. -/
def failedToMissed (erddap_url dataset_id : String) : Event → Option MissedT
  | .failed fmt e => some (erddap_url, dataset_id, fmt, e)
  | _ => none

/-- The per-file loop of download_files from src/download_files.py: no
exception handling, so the first failing fetch escapes with the state
reached so far. -/
def crawlFileLoop (env : Env) (file_url download_dir : String) :
    List String → St → Except (Err × St) St
  | [], st => .ok st
  | n :: ns, st =>
    match download env (file_url ++ n) (joinPath download_dir n) st with
    | (.ok _, st1) => crawlFileLoop env file_url download_dir ns st1
    | (.error e, st1) => .error (e, st1)

/-- download_files from src/download_files.py: list the files and the
folders of the page, download every file, then recurse into every folder,
discarding the recursive return values; the missed_files list initialised
at the top is never appended to and is returned as is.  Recursion depth is
cut by explicit fuel standing for the finite acyclic server tree. -/
def download_files2 (env : Env) :
    Nat → String → String → String → St → Except (Err × St) (List MissedT × St)
  | 0, _, _, _, st => .error (Err.fuelOut, st)
  | fuel + 1, erddap_url, file_url, download_dir, st =>
    match env.listFiles file_url with
    | .error e => .error (e, st)
    | .ok names =>
      match env.listFolders file_url with
      | .error e => .error (e, st)
      | .ok folders =>
        match crawlFileLoop env file_url download_dir names st with
        | .error es => .error es
        | .ok st1 =>
          match folders.foldlM (fun s f =>
              match download_files2 env fuel erddap_url (file_url ++ f)
                  (joinPath download_dir f) s with
              | .ok r => Except.ok r.2
              | .error es => Except.error es) st1 with
          | .error es => .error es
          | .ok st2 => .ok ([], st2)

/-- Structure kinds named by the specification. -/
inductive StructureKind where
  | tabular
  | gridded
  deriving DecidableEq

/-- Stated from the specification wording, for comparison with
build_dataset_url: a composition with a structure-kind-specific path
segment (tabledap or griddap) and, when the variable list is non-empty, a
query string of percent-encoded comma-joined variable names. -/
def spec_build_dataset_url (endpoint : String) (kind : StructureKind)
    (dataset_id fmt : String) (vars : List String) : String :=
  let seg :=
    match kind with
    | .tabular => "tabledap"
    | .gridded => "griddap"
  endpoint ++ "/" ++ seg ++ "/" ++ dataset_id ++ "." ++ fmt ++
    (if vars.isEmpty then "" else "?" ++ String.intercalate "%2C" vars)

/-- The empty initial state of a run. -/
def st0 : St := ⟨[], [], [], []⟩

/-- An environment whose server answers every request with a transport
error. -/
def envFail : Env :=
  ⟨fun _ => .error .network, fun _ => .error .network, fun _ => .error .network⟩

/-- An environment that rejects the composite ncCF request of dataset C
with HTTP 400 and accepts every other request. -/
def env1 : Env where
  fetch := fun url =>
    if url = "http://e/tabledap/C.ncCF" then .error (.http 400) else .ok [1]
  listFiles := fun _ => .error .network
  listFolders := fun _ => .error .network

/-- An environment whose only failing request is the metadata sidecar
url. -/
def env3 : Env where
  fetch := fun url => if url = "http://iso" then .error .network else .ok [7]
  listFiles := fun _ => .error .network
  listFolders := fun _ => .error .network

/-- An environment exposing an empty files tree. -/
def envEmptyList : Env :=
  ⟨fun _ => .ok [], fun _ => .ok [], fun _ => .ok []⟩

/-- A state whose filesystem already holds the nc and das files of
dataset A under directory dl. -/
def stSkip : St := ⟨[("dl/A.nc", [0]), ("dl/A.das", [0])], [], [], []⟩

/-- A table dataset with a metadata sidecar url. -/
def dsA : Dataset := ⟨"A", "table", "", "http://iso"⟩

/-- A second table dataset without a sidecar url. -/
def dsB : Dataset := ⟨"B", "table", "", ""⟩

/-- Flags selecting only table datasets, without skip-existing. -/
def flT : Flags := ⟨true, false, false, false⟩

/-- A parsed page with a Grid Variables table whose second row has no
cell: the shape on which the extractor raises AttributeError. -/
def tsBad : List Table := [⟨[⟨"Grid Variables", []⟩, ⟨"x", []⟩]⟩]

/-- A parsed page with a decoy table and a Grid Variables table holding
two value-carrying rows and one row whose input has no value attribute. -/
def tsGood : List Table :=
  [⟨[⟨"other", []⟩]⟩,
   ⟨[⟨"the Grid Variables header", []⟩,
     ⟨"r1", [⟨some ⟨some "temp"⟩⟩]⟩,
     ⟨"r2", [⟨some ⟨none⟩⟩]⟩,
     ⟨"r3", [⟨some ⟨some "salt"⟩⟩]⟩]⟩]

/-- A catalog header naming the four columns away from their conventional
positions. -/
def hdrW : List String := ["x", "datasetID", "dataStructure", "files", "iso19115"]

/-- Catalog rows holding the synthetic allDatasets row, a row with an
empty structure kind, and three ordinary datasets. -/
def rowsW : List (List String) :=
  [["r", "allDatasets", "table", "f0", "i0"],
   ["r", "B", "table", "fB", "iB"],
   ["r", "E", "", "fE", "iE"],
   ["r", "A", "grid", "fA", "iA"],
   ["r", "Z", "table", "fZ", "iZ"]]

/-- List.foldl that conditionally appends one element per input equals an
append of a filterMap. -/
theorem foldl_if_filterMap {α β : Type} (p : α → Bool) (g : α → β) :
    ∀ (l : List α) (acc : List β),
      l.foldl (fun a x => if p x then a ++ [g x] else a) acc
        = acc ++ l.filterMap (fun x => if p x then some (g x) else none) := by
  intro l
  induction l with
  | nil => intro acc; simp
  | cons x xs ih =>
    intro acc
    cases hp : p x <;> simp [hp, ih, List.filterMap_cons]

/-- One format iteration leaves the call list unchanged (a skip) or adds
exactly the dataset url of that format. -/
theorem downloadFmtStep_calls (env : Env) (u d dir : String) (sk : Bool)
    (st : St) (f : String) :
    (downloadFmtStep env u d dir sk st f).calls = st.calls ∨
    (downloadFmtStep env u d dir sk st f).calls
      = st.calls ++ [build_dataset_url u d f] := by
  cases hb : sk && fsExists st.fs (fmtPath dir d f) with
  | false =>
    right
    cases hf : env.fetch (build_dataset_url u d f) <;>
      simp [downloadFmtStep, hb, download, hf]
  | true =>
    left
    simp [downloadFmtStep, hb]

/-- One format iteration preserves the correspondence between the missed
list and the Failed events. -/
theorem downloadFmtStep_invariant (env : Env) (u d dir : String) (sk : Bool)
    (st : St) (f : String)
    (h : st.missed = st.events.filterMap (failedToMissed u d)) :
    (downloadFmtStep env u d dir sk st f).missed
      = (downloadFmtStep env u d dir sk st f).events.filterMap
          (failedToMissed u d) := by
  cases hb : sk && fsExists st.fs (fmtPath dir d f) with
  | true => simp [downloadFmtStep, hb, List.filterMap_append, failedToMissed, h]
  | false =>
    cases hf : env.fetch (build_dataset_url u d f) <;>
      simp [downloadFmtStep, hb, download, hf, List.filterMap_append,
        failedToMissed, h]

/-- The format loop preserves the missed-Failed correspondence. -/
theorem download_dataset_files_invariant (env : Env) (u d dir : String)
    (sk : Bool) :
    ∀ (formats : List String) (st : St),
      st.missed = st.events.filterMap (failedToMissed u d) →
      (download_dataset_files env u d formats dir sk st).missed
        = (download_dataset_files env u d formats dir sk st).events.filterMap
            (failedToMissed u d) := by
  intro formats
  induction formats with
  | nil => intro st h; simpa [download_dataset_files] using h
  | cons f fs ih =>
    intro st h
    simp only [download_dataset_files, List.foldl_cons] at ih ⊢
    exact ih _ (downloadFmtStep_invariant env u d dir sk st f h)

/-- The per-file loop of the flat crawler: one call per listed file and
one missed tuple per failing file. -/
theorem fileLoop_missed_calls (env : Env) (u d fu dd : String) :
    ∀ (names : List String) (st : St),
      ((names.foldl (downloadFileStep env u d fu dd) st).missed
        = st.missed ++ names.filterMap (fun n =>
            match env.fetch (fu ++ n) with
            | .error e => some (u, d, n, e)
            | .ok _ => none)) ∧
      ((names.foldl (downloadFileStep env u d fu dd) st).calls
        = st.calls ++ names.map (fun n => fu ++ n)) := by
  intro names
  induction names with
  | nil => intro st; simp
  | cons n ns ih =>
    intro st
    cases hf : env.fetch (fu ++ n) with
    | ok body =>
      have hstep : downloadFileStep env u d fu dd st n
          = { st with calls := st.calls ++ [fu ++ n],
                      fs := (joinPath dd n, body) :: st.fs } := by
        simp [downloadFileStep, download, hf]
      constructor
      · rw [List.foldl_cons, hstep, (ih _).1]
        simp [List.filterMap_cons, hf]
      · rw [List.foldl_cons, hstep, (ih _).2]
        simp
    | error e =>
      have hstep : downloadFileStep env u d fu dd st n
          = { st with calls := st.calls ++ [fu ++ n],
                      missed := st.missed ++ [(u, d, n, e)] } := by
        simp [downloadFileStep, download, hf]
      constructor
      · rw [List.foldl_cons, hstep, (ih _).1]
        simp [List.filterMap_cons, hf]
      · rw [List.foldl_cons, hstep, (ih _).2]
        simp

/-- The row loop of the extractor succeeds on rows that have a first
cell, collecting the input values in order. -/
theorem gridRowsLoop_eq :
    ∀ (rows : List Row) (acc : List String),
      (∀ r ∈ rows, r.cells ≠ []) →
      gridRowsLoop rows acc = some (acc ++ rows.filterMap rowValue) := by
  intro rows
  induction rows with
  | nil => intro acc h; simp [gridRowsLoop]
  | cons r rs ih =>
    intro acc h
    obtain ⟨c, cs, hcc⟩ : ∃ c cs, r.cells = c :: cs := by
      cases hc : r.cells with
      | nil => exact absurd hc (h r (by simp))
      | cons c cs => exact ⟨c, cs, rfl⟩
    have hrs : ∀ x ∈ rs, x.cells ≠ [] := fun x hx => h x (by simp [hx])
    cases hit : c.input_tag with
    | none =>
      simp [gridRowsLoop, hcc, hit, ih _ hrs, List.filterMap_cons, rowValue]
    | some it =>
      cases hv : it.value with
      | none =>
        simp [gridRowsLoop, hcc, hit, hv, ih _ hrs, List.filterMap_cons, rowValue]
      | some v =>
        simp [gridRowsLoop, hcc, hit, hv, ih _ hrs, List.filterMap_cons, rowValue]

/-- A list lookup inside its length yields exactly the default-free
element. -/
theorem get?_eq_some_getD :
    ∀ (l : List String) (n : Nat), n < l.length → l.get? n = some (l.getD n "")
  | _ :: _, 0, _ => rfl
  | _ :: l, n + 1, h => get?_eq_some_getD l n (by simpa using h)
  | [], _, h => absurd h (by simp)

/-- The row filter is insensitive to replacing the explicit id list by
one with the same members. -/
theorem keepRow_congr (l1 l2 : List String)
    (hmem : ∀ x, x ∈ l1 ↔ x ∈ l2) (a b : String) :
    keepRow (some l1) a b = keepRow (some l2) a b := by
  have hc : l1.contains a = l2.contains a := by
    have h1 := hmem a
    cases hc1 : l1.contains a <;> cases hc2 : l2.contains a <;> simp_all
  simp only [keepRow, hc]

/-- The catalog row loop, on rows long enough for all four located
positions, returns the filtered name-projected rows in catalog order. -/
theorem catalogLoop_eq (specified : Option (List String)) (i j k m : Nat) :
    ∀ (rows : List (List String))
      (acc : List (String × String × String × String)),
      (∀ row ∈ rows,
        i < row.length ∧ j < row.length ∧ k < row.length ∧ m < row.length) →
      catalogLoop specified i j k m rows acc
        = .ok (acc ++ rows.filterMap (fun row =>
            if keepRow specified (row.getD i "") (row.getD j "") then
              some (row.getD i "", row.getD j "", row.getD k "", row.getD m "")
            else none)) := by
  intro rows
  induction rows with
  | nil => intro acc h; simp [catalogLoop]
  | cons row rest ih =>
    intro acc h
    obtain ⟨h1, h2, h3, h4⟩ := h row (by simp)
    have hrest : ∀ r ∈ rest,
        i < r.length ∧ j < r.length ∧ k < r.length ∧ m < r.length :=
      fun r hr => h r (by simp [hr])
    simp only [catalogLoop, get?_eq_some_getD row i h1,
      get?_eq_some_getD row j h2, get?_eq_some_getD row k h3,
      get?_eq_some_getD row m h4]
    cases hkr : keepRow specified (row.getD i "") (row.getD j "") with
    | true =>
      simp only [List.filterMap_cons, hkr]
      simp [ih _ hrest]
    | false =>
      simp only [List.filterMap_cons, hkr]
      simp [ih _ hrest]

/-- The catalog row loop is insensitive to replacing the explicit id list
by one with the same members, short rows included: both runs fail at the
same row or keep the same rows. -/
theorem catalogLoop_congr (l1 l2 : List String)
    (hmem : ∀ x, x ∈ l1 ↔ x ∈ l2) (i j k m : Nat) :
    ∀ (rows : List (List String))
      (acc : List (String × String × String × String)),
      catalogLoop (some l1) i j k m rows acc
        = catalogLoop (some l2) i j k m rows acc := by
  intro rows
  induction rows with
  | nil => intro acc; rfl
  | cons row rest ih =>
    intro acc
    simp only [catalogLoop]
    cases hg1 : row.get? i with
    | none => rfl
    | some a =>
      cases hg2 : row.get? j with
      | none => rfl
      | some b =>
        cases hg3 : row.get? k with
        | none => rfl
        | some c =>
          cases hg4 : row.get? m with
          | none => rfl
          | some e =>
            have hkr := keepRow_congr l1 l2 hmem a b
            cases hb : keepRow (some l2) a b <;> simp [hkr, hb, ih]

/-- get_dataset_ids, when all four columns are present and every row is
long enough for the located positions, returns the name-projected rows
that pass the filter, in catalog order. -/
theorem get_dataset_ids_eq (header : List String) (rows : List (List String))
    (specified : Option (List String)) (i j k m : Nat)
    (hi : headerIndex header "datasetID" = some i)
    (hj : headerIndex header "dataStructure" = some j)
    (hk : headerIndex header "files" = some k)
    (hm : headerIndex header "iso19115" = some m)
    (hrows : ∀ row ∈ rows,
      i < row.length ∧ j < row.length ∧ k < row.length ∧ m < row.length) :
    get_dataset_ids header rows specified
      = .ok (rows.filterMap (fun row =>
          if keepRow specified (row.getD i "") (row.getD j "") then
            some (row.getD i "", row.getD j "", row.getD k "", row.getD m "")
          else none)) := by
  simp only [get_dataset_ids, hi, hj, hk, hm]
  simpa using catalogLoop_eq specified i j k m rows [] hrows

/-- C4: each requested format whose target file already exists yields,
with skipExisting enabled, a Skipped outcome and no network call, and
when every requested format is present the format loop issues zero
network calls and produces only Skipped outcomes. -/
theorem skip_existing_only_skipped :
    (∀ (env : Env) (u d dir : String) (st : St) (fmt : String),
      fsExists st.fs (fmtPath dir d fmt) = true →
      downloadFmtStep env u d dir true st fmt
        = { st with events := st.events ++ [Event.skipped fmt] }) ∧
    (∀ (env : Env) (u d dir : String) (formats : List String) (st : St),
      (∀ fmt ∈ formats, fsExists st.fs (fmtPath dir d fmt) = true) →
      download_dataset_files env u d formats dir true st
        = { st with events := st.events ++ formats.map Event.skipped }) := by
  constructor
  · intro env u d dir st fmt h
    simp [downloadFmtStep, h]
  · intro env u d dir formats
    induction formats with
    | nil =>
      intro st h
      simp [download_dataset_files]
    | cons f fs ih =>
      intro st h
      have hstep : downloadFmtStep env u d dir true st f
          = { st with events := st.events ++ [Event.skipped f] } := by
        simp [downloadFmtStep, h f (by simp)]
      simp only [download_dataset_files, List.foldl_cons] at ih ⊢
      rw [hstep, ih { st with events := st.events ++ [Event.skipped f] }
        (fun fmt hm => h fmt (by simp [hm]))]
      simp

/-- C4 witness: a run over formats nc and das that are both on disk. -/
theorem skip_existing_only_skipped_witness :
    download_dataset_files envFail "http://e" "A" ["nc", "das"] "dl" true stSkip
      = { stSkip with
          events := stSkip.events ++ [Event.skipped "nc", Event.skipped "das"] } := by
  have h := skip_existing_only_skipped.2 envFail "http://e" "A" "dl" ["nc", "das"]
    stSkip (by decide)
  simpa using h

/-- C1 counterexample: dataset C requests ncCF, the server answers 400
for ncCF and 200 for nc, and the nc file is not on disk, yet the run
yields one Failed outcome for ncCF, no Saved outcome tagged nc, and never
requests the nc url. -/
theorem ncCF_fallback_counterexample :
    Err.isClientError (Err.http 400) = true ∧
    env1.fetch (build_dataset_url "http://e" "C" "ncCF") = .error (.http 400) ∧
    env1.fetch (build_dataset_url "http://e" "C" "nc") = .ok [1] ∧
    fsExists st0.fs (fmtPath "dl" "C" "nc") = false ∧
    (download_dataset_files env1 "http://e" "C" ["ncCF"] "dl" false st0).events
      = [Event.failed "ncCF" (Err.http 400)] ∧
    (download_dataset_files env1 "http://e" "C" ["ncCF"] "dl" false st0).calls
      = [build_dataset_url "http://e" "C" "ncCF"] := by
  decide

/-- C1 amended: the format loop performs no composite-to-narrow fallback.
When the ncCF fetch fails and the format was not skipped, the iteration
records exactly one Failed outcome tagged ncCF together with its missed
tuple, and the only request issued is the ncCF url itself. -/
theorem ncCF_failure_no_fallback (env : Env) (u d dir : String) (sk : Bool)
    (st : St) (e : Err)
    (hfetch : env.fetch (build_dataset_url u d "ncCF") = .error e)
    (hskip : (sk && fsExists st.fs (fmtPath dir d "ncCF")) = false) :
    download_dataset_files env u d ["ncCF"] dir sk st
      = { st with
          calls := st.calls ++ [build_dataset_url u d "ncCF"],
          events := st.events ++ [Event.failed "ncCF" e],
          missed := st.missed ++ [(u, d, "ncCF", e)] } := by
  simp [download_dataset_files, downloadFmtStep, hskip, download, hfetch]

/-- C1 amended witness: the scenario of the counterexample satisfies the
amended statement. -/
theorem ncCF_failure_no_fallback_witness :
    download_dataset_files env1 "http://e" "C" ["ncCF"] "dl" false st0
      = { st0 with
          calls := st0.calls ++ [build_dataset_url "http://e" "C" "ncCF"],
          events := st0.events ++ [Event.failed "ncCF" (Err.http 400)],
          missed := st0.missed ++ [("http://e", "C", "ncCF", Err.http 400)] } :=
  ncCF_failure_no_fallback env1 "http://e" "C" "dl" false st0 (Err.http 400)
    (by decide) (by decide)

/-- C2 counterexample: the claimed structure-kind and variable dependent
composition differs, for a gridded dataset with one variable, from the
url the code builds, which always uses the tabledap segment and no query
string. -/
theorem dataset_url_kind_counterexample :
    build_dataset_url "http://e" "d" "nc" = "http://e/tabledap/d.nc" ∧
    spec_build_dataset_url "http://e" StructureKind.gridded "d" "nc" ["v"]
      = "http://e/griddap/d.nc?v" ∧
    spec_build_dataset_url "http://e" StructureKind.gridded "d" "nc" ["v"]
      ≠ build_dataset_url "http://e" "d" "nc" := by
  decide

/-- C2 amended: every network request issued by the format loop is of the
shape endpoint/tabledap/datasetId.format for one of the requested
formats, independent of structure kind and with no variable query
string. -/
theorem dataset_url_always_tabledap (env : Env) (u d dir : String)
    (formats : List String) (sk : Bool) (st : St) :
    ∀ url ∈ (download_dataset_files env u d formats dir sk st).calls,
      url ∈ st.calls ∨ ∃ fmt ∈ formats, url = build_dataset_url u d fmt := by
  induction formats generalizing st with
  | nil =>
    intro url hu
    exact Or.inl hu
  | cons f fs ih =>
    intro url hu
    simp only [download_dataset_files, List.foldl_cons] at hu
    rcases ih (downloadFmtStep env u d dir sk st f) url hu with hin | ⟨fmt, hfm, hurl⟩
    · rcases downloadFmtStep_calls env u d dir sk st f with hc | hc
      · rw [hc] at hin
        exact Or.inl hin
      · rw [hc] at hin
        rcases List.mem_append.mp hin with h1 | h2
        · exact Or.inl h1
        · exact Or.inr ⟨f, by simp, by simpa using h2⟩
    · exact Or.inr ⟨fmt, by simp [hfm], hurl⟩

/-- C2 amended witness: the single call of a one-format run is the
tabledap url of that format. -/
theorem dataset_url_always_tabledap_witness :
    "http://e/tabledap/C.ncCF"
        ∈ (download_dataset_files env1 "http://e" "C" ["ncCF"] "dl" false st0).calls ∧
    ("http://e/tabledap/C.ncCF" ∈ st0.calls ∨
      ∃ fmt ∈ ["ncCF"],
        "http://e/tabledap/C.ncCF" = build_dataset_url "http://e" "C" fmt) :=
  ⟨by decide,
   dataset_url_always_tabledap env1 "http://e" "C" "dl" ["ncCF"] false st0
     "http://e/tabledap/C.ncCF" (by decide)⟩

/-- C8: on fetch success the saved file holds exactly the response body
and every other path is untouched; on fetch failure the filesystem is
unchanged, so a target file is always either absent, previous, or
complete. -/
theorem download_roundtrip (env : Env) (url p : String) (st : St) :
    (∃ body, env.fetch url = .ok body ∧
      (download env url p st).2.fs = (p, body) :: st.fs ∧
      fsLookup (download env url p st).2.fs p = some body ∧
      ∀ q, q ≠ p → fsLookup (download env url p st).2.fs q = fsLookup st.fs q) ∨
    (∃ e, env.fetch url = .error e ∧ (download env url p st).2.fs = st.fs) := by
  cases hf : env.fetch url with
  | ok body =>
    left
    refine ⟨body, rfl, by simp [download, hf], by simp [download, hf, fsLookup], ?_⟩
    intro q hq
    simp [download, hf, fsLookup, Ne.symm hq]
  | error e =>
    right
    exact ⟨e, rfl, by simp [download, hf]⟩

/-- List.foldl that appends one element per input equals an append of a
map. -/
theorem foldl_append_map {α β : Type} (g : α → β) :
    ∀ (l : List α) (acc : List β),
      l.foldl (fun a x => a ++ [g x]) acc = acc ++ l.map g := by
  intro l
  induction l with
  | nil => intro acc; simp
  | cons x xs ih => intro acc; simp [ih]

/-- Fidelity of the row indexing: a blank csv line (parsed as the empty
row) makes get_dataset_ids fail like the uncaught IndexError of the
source, instead of skipping the row. -/
theorem get_dataset_ids_short_row_raises :
    get_dataset_ids hdrW [[], ["B", "table", "fB", "iB"]] none
      = .error CatalogErr.indexError := by
  decide

/-- C5: get_dataset_ids locates the four columns by name, excludes the
allDatasets row and rows with an empty structure kind, and, when an
explicit id list is given, returns exactly the matching rows in catalog
order, insensitive to the order of the id list (the characterisation
assumes every parsed row reaches the located positions; a shorter row is
the uncaught IndexError of the source). -/
theorem get_dataset_ids_characterisation (header : List String)
    (rows : List (List String)) (specified : Option (List String))
    (i j k m : Nat)
    (hi : headerIndex header "datasetID" = some i)
    (hj : headerIndex header "dataStructure" = some j)
    (hk : headerIndex header "files" = some k)
    (hm : headerIndex header "iso19115" = some m)
    (hrows : ∀ row ∈ rows,
      i < row.length ∧ j < row.length ∧ k < row.length ∧ m < row.length) :
    (get_dataset_ids header rows specified
      = .ok (rows.filterMap (fun row =>
          if keepRow specified (row.getD i "") (row.getD j "") then
            some (row.getD i "", row.getD j "", row.getD k "", row.getD m "")
          else none))) ∧
    (∀ l1 l2 : List String, (∀ x, x ∈ l1 ↔ x ∈ l2) →
      get_dataset_ids header rows (some l1)
        = get_dataset_ids header rows (some l2)) := by
  constructor
  · exact get_dataset_ids_eq header rows specified i j k m hi hj hk hm hrows
  · intro l1 l2 hmem
    simp only [get_dataset_ids, hi, hj, hk, hm]
    exact catalogLoop_congr l1 l2 hmem i j k m rows []

/-- C5 witness: explicit ids A and B select rows B then A in catalog
order, independent of the order of the id list. -/
theorem get_dataset_ids_characterisation_witness :
    get_dataset_ids hdrW rowsW (some ["A", "B"])
      = .ok [("B", "table", "fB", "iB"), ("A", "grid", "fA", "iA")] ∧
    get_dataset_ids hdrW rowsW (some ["A", "B"])
      = get_dataset_ids hdrW rowsW (some ["B", "A"]) := by
  have h := get_dataset_ids_characterisation hdrW rowsW (some ["A", "B"])
    1 2 3 4 (by decide) (by decide) (by decide) (by decide) (by decide)
  refine ⟨h.1.trans (by decide), h.2 ["A", "B"] ["B", "A"] ?_⟩
  intro x
  constructor <;> (intro hx; simp only [List.mem_cons] at hx ⊢; tauto)

/-- C6: a listing page failure aborts that crawl with exactly one
aggregated missed entry tagged all, a per-file failure inside a fetched
listing adds one entry per failing file while every listed file is still
attempted, and the dataset loop continues past a dataset whose listing
failed. -/
theorem download_files_failure_policy :
    (∀ (env : Env) (u d fu dd : String) (st : St) (e : Err),
      env.listFiles fu = .error e →
      download_files_dl env u d fu dd st
        = { st with missed := st.missed ++ [(u, d, "all", e)] }) ∧
    (∀ (env : Env) (u d fu dd : String) (st : St) (names : List String),
      env.listFiles fu = .ok names →
      (download_files_dl env u d fu dd st).missed
          = st.missed ++ names.filterMap (fun n =>
              match env.fetch (fu ++ n) with
              | .error e => some (u, d, n, e)
              | .ok _ => none) ∧
      (download_files_dl env u d fu dd st).calls
          = st.calls ++ names.map (fun n => fu ++ n)) ∧
    (∀ (env : Env) (fl : Flags) (u host folder : String)
        (formats : List String) (ds : Dataset) (rest : List Dataset)
        (st : St) (e : Err),
      (ds.dataStructure == "table") = false →
      (ds.fileUrl != "") = true →
      fl.grid_datasets_1 = true →
      ds.iso19115Url = "" →
      (fl.skip_existing
        && all_formats_exist st.fs (dsDir folder host ds.id) ds.id formats)
          = false →
      env.listFiles ds.fileUrl = .error e →
      processDatasets env fl u host folder formats (ds :: rest) st
        = processDatasets env fl u host folder formats rest
            { st with missed := st.missed ++ [(u, ds.id, "all", e)] }) := by
  refine ⟨?_, ?_, ?_⟩
  · intro env u d fu dd st e h
    simp [download_files_dl, h]
  · intro env u d fu dd st names h
    refine ⟨?_, ?_⟩
    · simp only [download_files_dl, h]
      exact (fileLoop_missed_calls env u d fu dd names st).1
    · simp only [download_files_dl, h]
      exact (fileLoop_missed_calls env u d fu dd names st).2
  · intro env fl u host folder formats ds rest st e hnt hhf hg hiso hskip hlist
    have hdl : download_files_dl env u ds.id ds.fileUrl
        (dsDir folder host ds.id) st
        = { st with missed := st.missed ++ [(u, ds.id, "all", e)] } := by
      simp [download_files_dl, hlist]
    have hp : processDataset env fl u host folder formats ds st
        = .ok { st with missed := st.missed ++ [(u, ds.id, "all", e)] } := by
      simp [processDataset, hskip, hnt, hhf, hg, hiso, hdl]
    simp only [processDatasets]
    rw [hp]

/-- C6 witness: a failing listing fetch yields the single aggregated
missed entry. -/
theorem download_files_failure_policy_witness :
    download_files_dl envFail "http://e" "D" "http://e/files/D/" "dl" st0
      = { st0 with
          missed := st0.missed ++ [("http://e", "D", "all", Err.network)] } :=
  download_files_failure_policy.1 envFail "http://e" "D" "http://e/files/D/"
    "dl" st0 Err.network (by decide)

/-- C3 counterexample: the primary nc download of dataset A succeeds, the
sidecar fetch fails, and the run aborts with an uncaught exception: the
sidecar failure is not recorded in the missed list, the saved primary
file is still on disk, and dataset B is never processed. -/
theorem iso_sidecar_abort_counterexample :
    processDatasets env3 flT "http://e" "h" "dl" ["nc"] [dsA, dsB] st0
      = .error (Err.network,
          { fs := [("dl/h/A/A.nc", [7])],
            calls := ["http://e/tabledap/A.nc", "http://iso"],
            events := [Event.saved "nc"],
            missed := [] }) ∧
    "http://e/tabledap/B.nc"
        ∉ (["http://e/tabledap/A.nc", "http://iso"] : List String) := by
  decide

/-- C3 amended: after the table branch of a dataset runs, a non-empty
metadata url is fetched; on success the body is saved at the iso19115
sidecar path, while on failure the files and missed entries of the
primary phase are kept unchanged but the error escapes uncaught, aborting
the dataset loop so that subsequent datasets are not processed. -/
theorem iso_sidecar_failure_aborts_run (env : Env) (fl : Flags)
    (u host folder : String) (formats : List String) (ds : Dataset)
    (rest : List Dataset) (st : St)
    (htab : (ds.dataStructure == "table") = true)
    (hflag : fl.table_datasets = true)
    (hskip : (fl.skip_existing
      && all_formats_exist st.fs (dsDir folder host ds.id) ds.id formats)
        = false)
    (hiso : (ds.iso19115Url != "") = true) :
    let st1 := download_dataset_files env u ds.id formats
        (dsDir folder host ds.id) fl.skip_existing st
    (∀ e, env.fetch ds.iso19115Url = .error e →
      processDataset env fl u host folder formats ds st
          = .error (e, { st1 with calls := st1.calls ++ [ds.iso19115Url] }) ∧
      processDatasets env fl u host folder formats (ds :: rest) st
          = .error (e, { st1 with calls := st1.calls ++ [ds.iso19115Url] })) ∧
    (∀ body, env.fetch ds.iso19115Url = .ok body →
      processDataset env fl u host folder formats ds st
          = .ok { st1 with
              fs := (isoPath (dsDir folder host ds.id) ds.id, body) :: st1.fs,
              calls := st1.calls ++ [ds.iso19115Url] }) := by
  intro st1
  constructor
  · intro e he
    have hpd : processDataset env fl u host folder formats ds st
        = .error (e, { st1 with calls := st1.calls ++ [ds.iso19115Url] }) := by
      simp [processDataset, hskip, htab, hflag, hiso, download, he, st1]
    refine ⟨hpd, ?_⟩
    simp only [processDatasets]
    rw [hpd]
  · intro body hb
    simp [processDataset, hskip, htab, hflag, hiso, download, hb, st1]

/-- C3 amended witness: the counterexample scenario satisfies the amended
statement. -/
theorem iso_sidecar_failure_aborts_run_witness :
    processDataset env3 flT "http://e" "h" "dl" ["nc"] dsA st0
      = .error (Err.network,
          { fs := [("dl/h/A/A.nc", [7])],
            calls := ["http://e/tabledap/A.nc", "http://iso"],
            events := [Event.saved "nc"],
            missed := [] }) := by
  have h := ((iso_sidecar_failure_aborts_run env3 flT "http://e" "h" "dl" ["nc"]
      dsA [] st0 (by decide) (by decide) (by decide) (by decide)).1
      Err.network (by decide)).1
  exact h.trans (by decide)

/-- C7 counterexample: a page whose Grid Variables table has a second row
without any cell makes the extractor fail (the modelled AttributeError)
instead of returning a sequence. -/
theorem extract_grid_variables_counterexample :
    extract_grid_variables tsBad = none := by
  decide

/-- C7 amended: the extractor returns the empty sequence when no Grid
Variables table is present, and on any page whose selected table has a
first cell in every row after the header it returns, in document order,
the value attributes found in those cells; it fails only on a header-less
row shape. -/
theorem extract_grid_variables_total_on_celled_rows :
    (∀ ts : List Table, findGridTable ts = none →
      extract_grid_variables ts = some []) ∧
    (∀ (ts : List Table) (t : Table), findGridTable ts = some t →
      (∀ r ∈ t.rows.tail, r.cells ≠ []) →
      extract_grid_variables ts = some (t.rows.tail.filterMap rowValue)) := by
  constructor
  · intro ts h
    simp [extract_grid_variables, h]
  · intro ts t h hcells
    simp only [extract_grid_variables, h]
    simpa using gridRowsLoop_eq t.rows.tail [] hcells

/-- C7 amended witness: a page with a decoy table and three well-formed
rows extracts the two present values in order. -/
theorem extract_grid_variables_total_witness :
    extract_grid_variables tsGood = some ["temp", "salt"] := by
  have h := extract_grid_variables_total_on_celled_rows.2 tsGood
    ⟨[⟨"the Grid Variables header", []⟩,
      ⟨"r1", [⟨some ⟨some "temp"⟩⟩]⟩,
      ⟨"r2", [⟨some ⟨none⟩⟩]⟩,
      ⟨"r3", [⟨some ⟨some "salt"⟩⟩]⟩]⟩
    (by decide) (by decide)
  exact h.trans (by decide)

/-- C9: the reporter appends exactly one row per missed tuple, each row
carrying the run start timestamp, endpoint, dataset id, missed target and
error description, and writes the header row only when the file did not
already exist; a run of the format loop contributes exactly its Failed
outcomes to the missed list, nothing for Saved or Skipped outcomes. -/
theorem error_report_rows :
    (∀ (missed : List MissedT) (ts : String) (ex : Bool)
        (old : List (List String)),
      do_error_report missed ts ex old
        = (if ex then old else old ++ [reportHeader])
            ++ missed.map (reportRow ts)) ∧
    (∀ (env : Env) (u d dir : String) (formats : List String) (sk : Bool)
        (fs : FS),
      (download_dataset_files env u d formats dir sk ⟨fs, [], [], []⟩).missed
        = (download_dataset_files env u d formats dir sk
            ⟨fs, [], [], []⟩).events.filterMap (failedToMissed u d)) := by
  constructor
  · intro missed ts ex old
    simp only [do_error_report]
    rw [foldl_append_map (reportRow ts) missed]
  · intro env u d dir formats sk fs
    exact download_dataset_files_invariant env u d dir sk formats
      ⟨fs, [], [], []⟩ (by simp)

/-- C10: the recursive files crawler never populates its missed list: a
crawl that returns at all returns the empty list, and a listing fetch
failure escapes as an exception carrying the state so far instead of
being returned as an aggregated entry. -/
theorem crawl_missed_never_populated :
    (∀ (env : Env) (fuel : Nat) (u fu dd : String) (st : St)
        (l : List MissedT) (st2 : St),
      download_files2 env fuel u fu dd st = .ok (l, st2) → l = []) ∧
    (∀ (env : Env) (fuel : Nat) (u fu dd : String) (st : St) (e : Err),
      env.listFiles fu = .error e →
      download_files2 env (fuel + 1) u fu dd st = .error (e, st)) := by
  constructor
  · intro env fuel u fu dd st l st2 h
    cases fuel with
    | zero => simp [download_files2] at h
    | succ fuel =>
      simp only [download_files2] at h
      split at h
      · simp at h
      · split at h
        · simp at h
        · split at h
          · simp at h
          · split at h
            · simp at h
            · simp only [Except.ok.injEq, Prod.mk.injEq] at h
              exact h.1.symm
  · intro env fuel u fu dd st e h
    simp [download_files2, h]

/-- C10 witness: a crawl of an empty tree returns the empty missed
list. -/
theorem crawl_missed_never_populated_witness :
    download_files2 envEmptyList 1 "u" "http://e/files/" "dl" st0
        = .ok ([], st0) ∧
    ([] : List MissedT) = [] :=
  ⟨by decide,
   crawl_missed_never_populated.1 envEmptyList 1 "u" "http://e/files/" "dl"
     st0 [] st0 (by decide)⟩

end Erddap
